import Mathlib

/-!
Verification of the U-Vote Voter Credential & Anonymous Ballot Engine.

Shallow embedding of the core operations of `auth-service/app.py`
(the sole database owner): token validation, identity verification (MFA),
the anonymity bridge (`issue_ballot_token`), vote casting (`cast_vote`),
and the audit verifier (`get_audit_trail`), over an explicit relational
state.  Every SQL statement of those endpoints is translated into list
operations on the state; `async with Database.transaction()` semantics
(roll back on exception) is modelled by operations returning
`Except Err (A × DB)`: an error result discards all writes of the call.

Rows are kept in insertion order and serial ids are assigned from
counters, so list order coincides with `ORDER BY id ASC` and the last
element of a filtered list is the `ORDER BY id DESC LIMIT 1` row.
`fetchrow` without an order clause is modelled as first match.
-/

namespace UVote

/-- Calendar date, the value produced by Python `date.fromisoformat`. -/
structure Date where
  year : Nat
  month : Nat
  day : Nat
deriving DecidableEq, Repr

/-- True in leap years, per the Gregorian rule used by Python `date`. -/
def isLeap (y : Nat) : Bool :=
  (y % 4 == 0 && y % 100 != 0) || y % 400 == 0

/-- Number of days in a month, honouring leap years. -/
def daysInMonth (y m : Nat) : Nat :=
  if m == 2 then (if isLeap y then 29 else 28)
  else if m == 4 || m == 6 || m == 9 || m == 11 then 30
  else 31

/-- Numeric value of a decimal digit character. -/
def digitVal (c : Char) : Nat := c.toNat - 48

/-- Parser for the strict `YYYY-MM-DD` form accepted by
`date.fromisoformat` in `verify_identity` (auth-service/app.py line 531);
returns `none` exactly when the Python call raises `ValueError`. -/
def parseIsoDate (s : String) : Option Date :=
  match s.toList with
  | [y1, y2, y3, y4, '-', m1, m2, '-', d1, d2] =>
    if (y1.isDigit && y2.isDigit && y3.isDigit && y4.isDigit &&
        m1.isDigit && m2.isDigit && d1.isDigit && d2.isDigit) then
      let y := ((digitVal y1 * 10 + digitVal y2) * 10 + digitVal y3) * 10 + digitVal y4
      let m := digitVal m1 * 10 + digitVal m2
      let d := digitVal d1 * 10 + digitVal d2
      if 1 ≤ m && m ≤ 12 && 1 ≤ d && d ≤ daysInMonth y m then
        some ⟨y, m, d⟩
      else none
    else none
  | _ => none

/-- Error kinds raised as `HTTPException` by the embedded endpoints.
`invalidDateFormat` ("Invalid date format (expected YYYY-MM-DD)") is the
one kind outside the taxonomy of spec section 7. -/
inductive Err where
  | notFound
  | alreadyUsed
  | expired
  | electionNotOpen
  | alreadyVoted
  | identityMismatch
  | identityVerificationRequired
  | invalidCredential
  | invalidOption
  | encryptionNotConfigured
  | auditNotAvailable
  | invalidDateFormat
deriving DecidableEq, Repr

/-- Row of the `voters` table. -/
structure Voter where
  id : Nat
  election_id : Nat
  email : String
  date_of_birth : Date
  has_voted : Bool
deriving DecidableEq, Repr

/-- Row of the `voting_tokens` table (identity-linked credential). -/
structure VotingToken where
  id : Nat
  token : String
  voter_id : Nat
  election_id : Nat
  expires_at : Nat
  is_used : Bool
  used_at : Option Nat
deriving DecidableEq, Repr

/-- Row of the `voter_mfa` table (IdentityVerificationRecord). -/
structure MfaRecord where
  id : Nat
  token : String
deriving DecidableEq, Repr

/-- Row of the `elections` table (the columns the core reads). -/
structure Election where
  id : Nat
  status : String
  encryption_key : Option String
deriving DecidableEq, Repr

/-- Row of the `election_options` table. -/
structure ElectionOption where
  id : Nat
  election_id : Nat
deriving DecidableEq, Repr

/-- Row of the `blind_tokens` table (BlindBallotCredential).  The insert
in `issue_ballot_token` supplies only `ballot_token` and `election_id`;
there is no voter column in this table. -/
structure BlindToken where
  id : Nat
  ballot_token : String
  election_id : Nat
  is_used : Bool
  used_at : Option Nat
deriving DecidableEq, Repr

/-- Row of the `encrypted_ballots` table (the hash-chained ledger). -/
structure EncryptedBallot where
  id : Nat
  election_id : Nat
  encrypted_vote : String
  previous_hash : Option String
  ballot_hash : String
  receipt_token : String
  cast_at : Nat
deriving DecidableEq, Repr

/-- Row of the `vote_receipts` table. -/
structure VoteReceipt where
  election_id : Nat
  receipt_token : String
  ballot_hash : String
  cast_at : Nat
deriving DecidableEq, Repr

/-- Row of the `audit_log` table. -/
structure AuditEntry where
  event_type : String
  election_id : Nat
  actor_type : String
  actor_id : Option Nat
  detail : String
deriving DecidableEq, Repr

/-- The persisted relational state.  Lists are in insertion order and the
`next_*` counters model the serial id sequences, so list order agrees
with id order for rows created by the core. -/
structure DB where
  voters : List Voter
  voting_tokens : List VotingToken
  voter_mfa : List MfaRecord
  elections : List Election
  election_options : List ElectionOption
  blind_tokens : List BlindToken
  encrypted_ballots : List EncryptedBallot
  vote_receipts : List VoteReceipt
  audit_log : List AuditEntry
  next_mfa_id : Nat
  next_blind_id : Nat
  next_ballot_id : Nat
deriving DecidableEq, Repr

/-- Lookup of a voting token by value (`WHERE vt.token = $1`). -/
def lookupTok (s : DB) (tok : String) : Option VotingToken :=
  s.voting_tokens.find? (fun vt => vt.token == tok)

/-- Lookup of an election by id (`JOIN elections e ON e.id = ...`). -/
def lookupElection (s : DB) (eid : Nat) : Option Election :=
  s.elections.find? (fun e => e.id == eid)

/-- Lookup of a voter by id. -/
def lookupVoter (s : DB) (vid : Nat) : Option Voter :=
  s.voters.find? (fun v => v.id == vid)

/-- Lookup of an MFA record by token value. -/
def lookupMfa (s : DB) (tok : String) : Option MfaRecord :=
  s.voter_mfa.find? (fun m => m.token == tok)

/-- Lookup of a blind ballot token by value and election
(`WHERE ballot_token = $1 AND election_id = $2`). -/
def lookupBlind (s : DB) (b : String) (eid : Nat) : Option BlindToken :=
  s.blind_tokens.find? (fun bt => bt.ballot_token == b && bt.election_id == eid)

/-- Ballots of one election in id order
(`WHERE election_id = $1 ORDER BY id ASC`). -/
def ballotsFor (s : DB) (eid : Nat) : List EncryptedBallot :=
  s.encrypted_ballots.filter (fun b => b.election_id == eid)

/-- Endpoint `GET /tokens/{token}/validate` (auth-service/app.py lines
506-525): join token with its election, then check `is_used`, expiry and
election status in that order; returns `(election_id, voter_id)`. -/
def validate_voting_token (s : DB) (now : Nat) (token : String) :
    Except Err (Nat × Nat) :=
  match lookupTok s token with
  | none => .error .notFound
  | some vt =>
    match lookupElection s vt.election_id with
    | none => .error .notFound
    | some e =>
      if vt.is_used then .error .alreadyUsed
      else if now > vt.expires_at then .error .expired
      else if e.status != "open" then .error .electionNotOpen
      else .ok (vt.election_id, vt.voter_id)

/-- Write of `INSERT INTO voter_mfa (token) VALUES ($1)`. -/
def mfaInsert (s : DB) (token : String) : DB :=
  { s with
    voter_mfa := s.voter_mfa ++ [⟨s.next_mfa_id, token⟩],
    next_mfa_id := s.next_mfa_id + 1 }

/-- Endpoint `POST /mfa/verify` (auth-service/app.py lines 528-561):
parse the submitted date first, then inside one transaction join token
with voter and election, run the checks in source order (`is_used`,
expiry, status, `has_voted`, date-of-birth), and on success insert the
MFA record unless one already exists.  Returns the post-state. -/
def verify_identity (s : DB) (now : Nat) (token : String)
    (date_of_birth : String) : Except Err DB :=
  match parseIsoDate date_of_birth with
  | none => .error .invalidDateFormat
  | some submitted_dob =>
    match lookupTok s token with
    | none => .error .notFound
    | some vt =>
      match lookupVoter s vt.voter_id, lookupElection s vt.election_id with
      | some v, some e =>
        if vt.is_used then .error .alreadyUsed
        else if now > vt.expires_at then .error .expired
        else if e.status != "open" then .error .electionNotOpen
        else if v.has_voted then .error .alreadyVoted
        else if v.date_of_birth != submitted_dob then .error .identityMismatch
        else
          match lookupMfa s token with
          | some _ => .ok s
          | none => .ok (mfaInsert s token)
      | _, _ => .error .notFound

/-- Endpoint `GET /mfa/status`: pure existence check on `voter_mfa`. -/
def mfa_status (s : DB) (token : String) : Bool :=
  (lookupMfa s token).isSome

/-- Constant audit detail written by the anonymity bridge; it mentions
only the election, never the voter. -/
def issueAuditDetail : String :=
  "\x7b\"note\": \"blind token issued, voter identity separated\"\x7d"

/-- Audit detail written by `cast_vote`; it carries the receipt token and
a fixed note, never the chosen option or an identity. -/
def castAuditDetail (receipt : String) : String :=
  "\x7b\"receipt_token\": \"" ++ receipt ++
    "\", \"note\": \"encrypted ballot cast anonymously\"\x7d"

/-- Truth value of the source guard `if voter and voter["has_voted"]`:
a missing voter row does not fail the bridge. -/
def voterVoted : Option Voter → Bool
  | some v => v.has_voted
  | none => false

/-- The updated voter row: `UPDATE voters SET has_voted = TRUE WHERE id = $1`. -/
def markVoted (vid : Nat) (v : Voter) : Voter :=
  if v.id == vid then { v with has_voted := true } else v

/-- The updated token row: `UPDATE voting_tokens SET is_used = TRUE,
used_at = CURRENT_TIMESTAMP WHERE id = $1`. -/
def markTokenUsed (tid now : Nat) (t : VotingToken) : VotingToken :=
  if t.id == tid then { t with is_used := true, used_at := some now } else t

/-- The writes of the anonymity bridge, in source order: mark the voter
voted, mark the token used, insert the blind token row (only ballot-token
value and election id), append the audit record. -/
def bridgeWrite (s : DB) (now : Nat) (fresh : String) (vt : VotingToken) : DB :=
  { s with
    voters := s.voters.map (markVoted vt.voter_id),
    voting_tokens := s.voting_tokens.map (markTokenUsed vt.id now),
    blind_tokens := s.blind_tokens ++
      [⟨s.next_blind_id, fresh, vt.election_id, false, none⟩],
    next_blind_id := s.next_blind_id + 1,
    audit_log := s.audit_log ++
      [⟨"ballot_token_issued", vt.election_id, "system", none,
        issueAuditDetail⟩] }

/-- Endpoint `POST /ballot-token/issue`, the anonymity bridge
(auth-service/app.py lines 575-620).  One transaction: re-validate the
token (`NotFound`/`AlreadyUsed`/`Expired`/`ElectionNotOpen`), require an
MFA record (`IdentityVerificationRequired`), re-check the voter row
(`AlreadyVoted`; a missing voter row is tolerated as in the source
`if voter and voter["has_voted"]`), then mark the voter voted, mark the
token used, insert the blind token row carrying only the ballot-token
value and the election id, and append the audit record.  `fresh` is the
value returned by `generate_blind_ballot_token()`. -/
def issue_ballot_token (s : DB) (now : Nat) (token : String)
    (fresh : String) : Except Err ((String × Nat) × DB) :=
  match lookupTok s token with
  | none => .error .notFound
  | some vt =>
    match lookupElection s vt.election_id with
    | none => .error .notFound
    | some e =>
      if vt.is_used then .error .alreadyUsed
      else if now > vt.expires_at then .error .expired
      else if e.status != "open" then .error .electionNotOpen
      else if (lookupMfa s token).isNone then .error .identityVerificationRequired
      else if voterVoted (lookupVoter s vt.voter_id) then .error .alreadyVoted
      else .ok ((fresh, vt.election_id), bridgeWrite s now fresh vt)

/-- Modelled from the spec: `pgp_sym_encrypt($2::text, $3)` runs inside
PostgreSQL and its definition is not under src/.  Spec section 4.3 step 5
describes it as authenticated symmetric encryption of the option
identifier under the election key; the stand-in is an opaque injective
tagging of key and plaintext, which is all the claims use. -/
def pgpSymEncrypt (plain key : String) : String :=
  "pgp(" ++ key ++ "|" ++ plain ++ ")"

/-- Modelled from the spec: `ballot_hash` is filled in by a database
trigger (voting-service/app.py line 263 comment: "the ballot_hash that
was auto-generated by the trigger"); the trigger body is not under src/.
Spec section 4.3 step 6 describes it as a cryptographic hash over the
row's identifying fields; the stand-in encodes those fields.  The claims
use only the stored equalities between hashes, never hash properties. -/
def ballotHash (eid : Nat) (cipher : String) (prev : Option String)
    (seq : Nat) : String :=
  "h(" ++ toString eid ++ "|" ++ cipher ++ "|" ++
    (match prev with | some p => p | none => "") ++ "|" ++ toString seq ++ ")"

/-- The updated blind-token row: `UPDATE blind_tokens SET is_used = TRUE,
used_at = CURRENT_TIMESTAMP WHERE id = $1`. -/
def markBlindUsed (btid now : Nat) (t : BlindToken) : BlindToken :=
  if t.id == btid then { t with is_used := true, used_at := some now } else t

/-- The writes of `cast_vote`, in source order: insert the encrypted
ballot with the tip read from the chain (`None` when the election has no
prior ballot), read back the trigger-computed hash by receipt token,
insert the receipt row, mark the blind token used, append the audit
record.  Returns the new state and the hash reported to the caller. -/
def castWrite (s : DB) (now option_id election_id : Nat)
    (receipt key : String) (btid : Nat) : DB × String :=
  let previous_hash : Option String :=
    (ballotsFor s election_id).getLast?.map (fun b => b.ballot_hash)
  let cipher := pgpSymEncrypt (toString option_id) key
  let newBallot : EncryptedBallot :=
    ⟨s.next_ballot_id, election_id, cipher, previous_hash,
     ballotHash election_id cipher previous_hash s.next_ballot_id,
     receipt, now⟩
  let ballots1 := s.encrypted_ballots ++ [newBallot]
  let fetched_hash : String :=
    ((ballots1.find? (fun b => b.receipt_token == receipt)).map
      (fun b => b.ballot_hash)).getD newBallot.ballot_hash
  ({ s with
     encrypted_ballots := ballots1,
     next_ballot_id := s.next_ballot_id + 1,
     vote_receipts := s.vote_receipts ++
       [⟨election_id, receipt, fetched_hash, now⟩],
     blind_tokens := s.blind_tokens.map (markBlindUsed btid now),
     audit_log := s.audit_log ++
       [⟨"ballot_cast", election_id, "voter", none,
         castAuditDetail receipt⟩] }, fetched_hash)

/-- Endpoint `POST /vote/cast` (auth-service/app.py lines 650-713).  One
transaction: lock the blind token by value and election
(`InvalidCredential` if absent, `AlreadyUsed` if consumed), re-check the
election is open, check the option belongs to the election, require the
encryption key, read the chain tip (`ORDER BY id DESC LIMIT 1`, `None`
when no prior ballot), insert the encrypted ballot, read back its hash by
receipt token, insert the receipt row, mark the blind token used, and
append the audit record.  `receipt` is `generate_receipt_token()`. -/
def cast_vote (s : DB) (now : Nat) (ballot_token : String) (option_id : Nat)
    (election_id : Nat) (receipt : String) :
    Except Err ((String × String) × DB) :=
  match lookupBlind s ballot_token election_id with
  | none => .error .invalidCredential
  | some bt =>
    if bt.is_used then .error .alreadyUsed
    else
      match lookupElection s election_id with
      | none => .error .electionNotOpen
      | some e =>
        if e.status != "open" then .error .electionNotOpen
        else if (s.election_options.find? (fun o =>
                  o.id == option_id && o.election_id == election_id)).isNone then
          .error .invalidOption
        else
          match e.encryption_key with
          | none => .error .encryptionNotConfigured
          | some key =>
            let w := castWrite s now option_id election_id receipt key bt.id
            .ok ((receipt, w.2), w.1)

/-- Verdict of the audit verifier loop: `hash_chain_valid` starts `true`
and is cleared when some entry with index `i > 0` has `previous_hash`
different from the preceding entry's `ballot_hash`
(auth-service/app.py lines 799-801). -/
def chainAux (prev : EncryptedBallot) : List EncryptedBallot → Bool
  | [] => true
  | b :: rest => (b.previous_hash == some prev.ballot_hash) && chainAux b rest

/-- Chain verdict over the full ballot list; the first entry's
`previous_hash` is not inspected. -/
def chainCheck : List EncryptedBallot → Bool
  | [] => true
  | b :: rest => chainAux b rest

/-- Response of the audit endpoint. -/
structure AuditResp where
  election_id : Nat
  total_ballots : Nat
  hash_chain_valid : Bool
  entries : List EncryptedBallot
deriving DecidableEq, Repr

/-- Endpoint `GET /elections/{id}/audit` (auth-service/app.py lines
781-811): 404 when the election does not exist, `AuditNotAvailable`
unless its status is "closed", otherwise the ballots in id order with
their count and the chain verdict.  Pure read. -/
def get_audit_trail (s : DB) (election_id : Nat) : Except Err AuditResp :=
  match lookupElection s election_id with
  | none => .error .notFound
  | some e =>
    if e.status != "closed" then .error .auditNotAvailable
    else
      let ballots := ballotsFor s election_id
      .ok ⟨election_id, ballots.length, chainCheck ballots, ballots⟩

/-- Endpoint `GET /receipt/{receipt_token}`: pure read. -/
def verify_receipt (s : DB) (receipt_token : String) :
    Except Err (String × Nat) :=
  match s.vote_receipts.find? (fun r => r.receipt_token == receipt_token) with
  | none => .error .notFound
  | some r =>
    match lookupElection s r.election_id with
    | none => .error .notFound
    | some _ => .ok (r.ballot_hash, r.election_id)

/-- One invocation of a core operation, with its request arguments and
the ambient values (current time, generated random values) it consumes. -/
inductive Op where
  | validate (now : Nat) (token : String)
  | mfaStatus (token : String)
  | verifyIdentity (now : Nat) (token : String) (dob : String)
  | issueBallot (now : Nat) (token : String) (fresh : String)
  | castVote (now : Nat) (ballot_token : String) (option_id : Nat)
      (election_id : Nat) (receipt : String)
  | auditTrail (election_id : Nat)
  | verifyReceipt (receipt : String)
deriving DecidableEq, Repr

/-- Effect of one operation on the persisted state.  Reads leave the
state unchanged; a failed transaction rolls back, leaving it unchanged
as well. -/
def applyOp (s : DB) : Op → DB
  | .verifyIdentity now t d =>
    match verify_identity s now t d with
    | .ok s1 => s1
    | .error _ => s
  | .issueBallot now t f =>
    match issue_ballot_token s now t f with
    | .ok (_, s1) => s1
    | .error _ => s
  | .castVote now b o e r =>
    match cast_vote s now b o e r with
    | .ok (_, s1) => s1
    | .error _ => s
  | _ => s

/-- State after a sequence of core operations. -/
def run (s : DB) : List Op → DB
  | [] => s
  | op :: ops => run (applyOp s op) ops

/-- Whether the anonymity bridge succeeds on this state and arguments. -/
def issueSucceeds (s : DB) (now : Nat) (t f : String) : Bool :=
  match issue_ballot_token s now t f with
  | .ok _ => true
  | .error _ => false

/-- Number of successful `issue_ballot_token` calls carrying token value
`tok` along a run. -/
def countIssueSuccess (s : DB) (tok : String) : List Op → Nat
  | [] => 0
  | op :: ops =>
    (match op with
     | .issueBallot now t f =>
       if t == tok && issueSucceeds s now t f then 1 else 0
     | _ => 0) + countIssueSuccess (applyOp s op) tok ops

/-- Whether `cast_vote` succeeds on this state and arguments. -/
def castSucceeds (s : DB) (now : Nat) (b : String) (o e : Nat)
    (r : String) : Bool :=
  match cast_vote s now b o e r with
  | .ok _ => true
  | .error _ => false

/-- Number of successful `cast_vote` calls presenting credential value
`btok` for election `eid` along a run. -/
def countCastSuccess (s : DB) (btok : String) (eid : Nat) : List Op → Nat
  | [] => 0
  | op :: ops =>
    (match op with
     | .castVote now b o e r =>
       if b == btok && e == eid && castSucceeds s now b o e r then 1 else 0
     | _ => 0) + countCastSuccess (applyOp s op) btok eid ops

/-! Schema-level view for the unlinkability invariant.  Every persisted
row is rendered as a list of column-name/value pairs, so that "no row
references both a voter id and a credential value" can be stated over the
whole schema rather than per table. -/

/-- Column names occurring in the persisted schema. -/
inductive Col where
  | id | election_id | email | date_of_birth | has_voted | token | voter_id
  | expires_at | is_used | used_at | status | encryption_key | ballot_token
  | encrypted_vote | previous_hash | ballot_hash | receipt_token | cast_at
  | event_type | actor_type | actor_id | detail
deriving DecidableEq, Repr

/-- Tables of the persisted schema touched by the core. -/
inductive Table where
  | voters | voting_tokens | voter_mfa | elections | election_options
  | blind_tokens | encrypted_ballots | vote_receipts | audit_log
deriving DecidableEq, Repr

/-- Generic SQL value. -/
inductive Val where
  | n : Nat → Val
  | s : String → Val
  | b : Bool → Val
  | null : Val
deriving DecidableEq, Repr

/-- Equality test on generic values. -/
def valEq : Val → Val → Bool
  | .n a, .n b => a == b
  | .s a, .s b => a == b
  | .b a, .b b => a == b
  | .null, .null => true
  | _, _ => false

/-- A generic row: column names with their values. -/
abbrev Row := List (Col × Val)

/-- Optional timestamp as a SQL value. -/
def natOpt : Option Nat → Val
  | some n => .n n
  | none => .null

/-- Optional string as a SQL value. -/
def strOpt : Option String → Val
  | some x => .s x
  | none => .null

/-- Two-digit zero padding for ISO dates. -/
def pad2 (n : Nat) : String := if n < 10 then "0" ++ toString n else toString n

/-- ISO rendering of a date, the textual form a date column exposes. -/
def Date.iso (d : Date) : String :=
  toString d.year ++ "-" ++ pad2 d.month ++ "-" ++ pad2 d.day

/-- The `voters` table as generic rows. -/
def voterRow (v : Voter) : Table × Row :=
  (.voters,
   [(.id, .n v.id), (.election_id, .n v.election_id), (.email, .s v.email),
    (.date_of_birth, .s v.date_of_birth.iso), (.has_voted, .b v.has_voted)])

/-- The `voting_tokens` table as generic rows. -/
def votingTokenRow (vt : VotingToken) : Table × Row :=
  (.voting_tokens,
   [(.id, .n vt.id), (.token, .s vt.token), (.voter_id, .n vt.voter_id),
    (.election_id, .n vt.election_id), (.expires_at, .n vt.expires_at),
    (.is_used, .b vt.is_used), (.used_at, natOpt vt.used_at)])

/-- The `voter_mfa` table as generic rows. -/
def mfaRow (m : MfaRecord) : Table × Row :=
  (.voter_mfa, [(.id, .n m.id), (.token, .s m.token)])

/-- The `elections` table as generic rows. -/
def electionRow (e : Election) : Table × Row :=
  (.elections,
   [(.id, .n e.id), (.status, .s e.status),
    (.encryption_key, strOpt e.encryption_key)])

/-- The `election_options` table as generic rows. -/
def optionRow (o : ElectionOption) : Table × Row :=
  (.election_options, [(.id, .n o.id), (.election_id, .n o.election_id)])

/-- The `blind_tokens` table as generic rows. -/
def blindRow (bt : BlindToken) : Table × Row :=
  (.blind_tokens,
   [(.id, .n bt.id), (.ballot_token, .s bt.ballot_token),
    (.election_id, .n bt.election_id), (.is_used, .b bt.is_used),
    (.used_at, natOpt bt.used_at)])

/-- The `encrypted_ballots` table as generic rows. -/
def ballotRow (b : EncryptedBallot) : Table × Row :=
  (.encrypted_ballots,
   [(.id, .n b.id), (.election_id, .n b.election_id),
    (.encrypted_vote, .s b.encrypted_vote),
    (.previous_hash, strOpt b.previous_hash),
    (.ballot_hash, .s b.ballot_hash), (.receipt_token, .s b.receipt_token),
    (.cast_at, .n b.cast_at)])

/-- The `vote_receipts` table as generic rows. -/
def receiptRow (r : VoteReceipt) : Table × Row :=
  (.vote_receipts,
   [(.election_id, .n r.election_id), (.receipt_token, .s r.receipt_token),
    (.ballot_hash, .s r.ballot_hash), (.cast_at, .n r.cast_at)])

/-- The `audit_log` table as generic rows. -/
def auditRow (a : AuditEntry) : Table × Row :=
  (.audit_log,
   [(.event_type, .s a.event_type), (.election_id, .n a.election_id),
    (.actor_type, .s a.actor_type), (.actor_id, natOpt a.actor_id),
    (.detail, .s a.detail)])

/-- Every persisted row of the state, rendered generically. -/
def persistedRows (s : DB) : List (Table × Row) :=
  s.voters.map voterRow ++ s.voting_tokens.map votingTokenRow ++
  s.voter_mfa.map mfaRow ++ s.elections.map electionRow ++
  s.election_options.map optionRow ++ s.blind_tokens.map blindRow ++
  s.encrypted_ballots.map ballotRow ++ s.vote_receipts.map receiptRow ++
  s.audit_log.map auditRow

/-- Test for the `voter_id` column. -/
def isVoterIdCol : Col → Bool
  | .voter_id => true
  | _ => false

/-- Test for the `id` column. -/
def isIdCol : Col → Bool
  | .id => true
  | _ => false

/-- Test for the `voters` table. -/
def isVotersTable : Table → Bool
  | .voters => true
  | _ => false

/-- A row references voter id `vid` when it has a `voter_id` column with
that value, or is a `voters` row whose own `id` is that value. -/
def refsVoterId (t : Table × Row) (vid : Nat) : Bool :=
  t.2.any (fun f => isVoterIdCol f.1 && valEq f.2 (.n vid)) ||
  (isVotersTable t.1 && t.2.any (fun f => isIdCol f.1 && valEq f.2 (.n vid)))

/-- A row mentions the string value `c` in some column. -/
def mentionsVal (r : Row) (c : String) : Bool :=
  r.any (fun f => valEq f.2 (.s c))

/-- Ids of all voters in the state. -/
def voterIds (s : DB) : List Nat := s.voters.map (fun v => v.id)

/-- All BlindBallotCredential values in the state. -/
def credValues (s : DB) : List String :=
  s.blind_tokens.map (fun bt => bt.ballot_token)

/-- The unlinkability property of spec section 3: no persisted row
references both a voter id and a BlindBallotCredential value. -/
def unlinked (s : DB) : Bool :=
  (persistedRows s).all (fun t =>
    (voterIds s).all (fun vid =>
      (credValues s).all (fun c => !(refsVoterId t vid && mentionsVal t.2 c))))

/-- String values stored in identity-linked rows: voter emails, voter
dates of birth and voting-token values.  The core operations never
insert, delete or rewrite any of them. -/
def identityStrings (s : DB) : List String :=
  s.voters.map (fun v => v.email) ++
  s.voters.map (fun v => v.date_of_birth.iso) ++
  s.voting_tokens.map (fun vt => vt.token)

/-- No credential value collides with an identity-linked string.  This is
the "no shared value exists between the two tables" reading of the spec,
strengthened to an inductive invariant. -/
def credFresh (s : DB) : Bool :=
  (credValues s).all (fun c => !(identityStrings s).contains c)

/-- The randomness side condition on one operation: a ballot-token value
minted by `generate_blind_ballot_token()` does not collide with any
identity-linked string (spec: fresh cryptographically secure randomness
with no relationship to voter id or token value). -/
def opFreshOk (ids : List String) : Op → Bool
  | .issueBallot _ _ f => !ids.contains f
  | _ => true

/-- The randomness side condition over a whole run. -/
def freshOpsOk (s : DB) (ops : List Op) : Bool :=
  ops.all (opFreshOk (identityStrings s))

/-- A ballot list is a well-formed chain continuing from `tip`: the first
entry's `previous_hash` equals `tip` and each later entry's equals the
preceding entry's `ballot_hash`.  With `tip = none` this says the first
ballot carries the sentinel (SQL `NULL`, the source's `None`). -/
def listChainOk : Option String → List EncryptedBallot → Bool
  | _, [] => true
  | tip, b :: rest => (b.previous_hash == tip) && listChainOk (some b.ballot_hash) rest

/-- Tip of a chain that started from `tip`: the last entry's hash. -/
def chainTip (tip : Option String) : List EncryptedBallot → Option String
  | [] => tip
  | b :: rest => chainTip (some b.ballot_hash) rest

/-- Every per-election ballot list in the state is a well-formed chain
started from the sentinel. -/
def ChainOk (s : DB) : Prop :=
  ∀ eid, listChainOk none (ballotsFor s eid) = true


/-- The voting token with value `tok` is found and already consumed, with
its election row present (so a re-validation reaches the `is_used`
check). -/
def TokenDead (s : DB) (tok : String) : Prop :=
  ∃ vt, lookupTok s tok = some vt ∧ vt.is_used = true ∧
    (lookupElection s vt.election_id).isSome = true

/-- The blind token with value `b` for election `eid` is found and
already consumed. -/
def BlindDead (s : DB) (b : String) (eid : Nat) : Prop :=
  ∃ bt, lookupBlind s b eid = some bt ∧ bt.is_used = true


/-- Adjacency relation checked by the verifier: the later entry points at
the earlier entry's hash. -/
def chainRel (x y : EncryptedBallot) : Prop :=
  y.previous_hash = some x.ballot_hash


/-- Number of IdentityVerificationRecords stored for a token value. -/
def countMfa (s : DB) (tok : String) : Nat :=
  s.voter_mfa.countP (fun m => m.token == tok)

/-! Concrete fixtures used by the witnesses. -/

/-- The date of birth used in the fixtures. -/
def dob0 : Date := ⟨1990, 6, 15⟩

/-- Fixture voter. -/
def voter0 : Voter := ⟨1, 1, "voter@example.com", dob0, false⟩

/-- Fixture voting token, valid until time 1000. -/
def tok0 : VotingToken := ⟨1, "tokA", 1, 1, 1000, false, none⟩

/-- Fixture open election with an encryption key. -/
def election0 : Election := ⟨1, "open", some "key0"⟩

/-- Fixture option belonging to election 1. -/
def option0 : ElectionOption := ⟨7, 1⟩

/-- Baseline state: one open election with one option, one voter who has
not voted, one unused unexpired token, no MFA record. -/
def db0 : DB := ⟨[voter0], [tok0], [], [election0], [option0], [], [], [], [], 1, 1, 1⟩

/-- Baseline state with the MFA record already present. -/
def db1 : DB := { db0 with voter_mfa := [⟨1, "tokA"⟩] }

/-- State after a successful bridge call on `db1` at time 5. -/
def db2 : DB := applyOp db1 (.issueBallot 5 "tokA" "blindB")

/-- Baseline state with an unused blind ballot token for election 1. -/
def dbB : DB := { db0 with blind_tokens := [⟨1, "blindB", 1, false, none⟩] }

/-- State after a successful cast on `dbB` at time 7. -/
def dbB2 : DB := applyOp dbB (.castVote 7 "blindB" 7 1 "rcptR")

/-- Baseline state with the election closed, for the audit witness. -/
def dbC : DB := { db0 with elections := [⟨1, "closed", some "key0"⟩] }

/-- State whose token is both consumed and expired (expiry 10). -/
def dbX : DB := { db0 with voting_tokens := [⟨1, "tokA", 1, 1, 10, true, none⟩] }

/-- State whose token is unused but expired (expiry 10). -/
def dbE : DB := { db0 with voting_tokens := [⟨1, "tokA", 1, 1, 10, false, none⟩] }

/-- State after a successful identity verification on `db0` at time 5. -/
def dbV : DB := applyOp db0 (.verifyIdentity 5 "tokA" "1990-06-15")


/-! General list lemmas used throughout. -/

theorem find?_map_pred {α : Type} (f : α → α) (p : α → Bool)
    (h : ∀ x, p (f x) = p x) (l : List α) :
    (l.map f).find? p = (l.find? p).map f := by
  induction l with
  | nil => rfl
  | cons a t ih =>
    simp only [List.map_cons, List.find?_cons, h a]
    cases hpa : p a with
    | true => simp
    | false => simpa using ih

theorem map_map_eq_of {α β : Type} (f : α → α) (g : α → β)
    (h : ∀ x, g (f x) = g x) (l : List α) : (l.map f).map g = l.map g := by
  induction l with
  | nil => rfl
  | cons a t ih => simp [h a, ih]

theorem find?_append_some {α : Type} {p : α → Bool} {l₁ : List α}
    (l₂ : List α) {a : α} (h : l₁.find? p = some a) :
    (l₁ ++ l₂).find? p = some a := by
  rw [List.find?_append, h]; rfl

theorem countP_eq_zero_of_find?_none {α : Type} {p : α → Bool}
    {l : List α} (h : l.find? p = none) : l.countP p = 0 := by
  rw [List.countP_eq_zero]
  intro a ha
  exact (List.find?_eq_none.mp h) a ha

theorem countP_pos_of_find?_some {α : Type} {p : α → Bool} {l : List α}
    {a : α} (h : l.find? p = some a) : 0 < l.countP p := by
  rw [List.countP_pos_iff]
  exact ⟨a, List.mem_of_find?_eq_some h, List.find?_some h⟩

/-! Inversion lemmas: what a successful call tells about the pre-state
and the post-state. -/

theorem issue_ok_inv {s : DB} {now : Nat} {tok fresh : String}
    {r : String × Nat} {s₁ : DB}
    (h : issue_ballot_token s now tok fresh = .ok (r, s₁)) :
    ∃ vt e, lookupTok s tok = some vt ∧
      lookupElection s vt.election_id = some e ∧
      vt.is_used = false ∧ ¬ now > vt.expires_at ∧ e.status = "open" ∧
      (lookupMfa s tok).isSome = true ∧
      voterVoted (lookupVoter s vt.voter_id) = false ∧
      r = (fresh, vt.election_id) ∧ s₁ = bridgeWrite s now fresh vt := by
  unfold issue_ballot_token at h
  split at h
  · cases h
  rename_i vt htok
  split at h
  · cases h
  rename_i e hel
  refine ⟨vt, e, htok, hel, ?_⟩
  split_ifs at h with h1 h2 h3 h4 h5
  cases h
  refine ⟨by simpa using h1, h2, by simpa using h3, ?_,
    by simpa using h5, rfl, rfl⟩
  cases hm : lookupMfa s tok with
  | none => rw [hm] at h4; simp at h4
  | some m => simp [hm]

theorem verify_ok_inv {s : DB} {now : Nat} {tok dob : String} {s₁ : DB}
    (h : verify_identity s now tok dob = .ok s₁) :
    ∃ d vt v e, parseIsoDate dob = some d ∧
      lookupTok s tok = some vt ∧
      lookupVoter s vt.voter_id = some v ∧
      lookupElection s vt.election_id = some e ∧
      vt.is_used = false ∧ ¬ now > vt.expires_at ∧ e.status = "open" ∧
      v.has_voted = false ∧ v.date_of_birth = d ∧
      ((∃ m, lookupMfa s tok = some m) ∧ s₁ = s ∨
       lookupMfa s tok = none ∧ s₁ = mfaInsert s tok) := by
  unfold verify_identity at h
  split at h
  · cases h
  rename_i d hd
  split at h
  · cases h
  rename_i vt htok
  split at h
  case h_2 => cases h
  rename_i v e hv hel
  refine ⟨d, vt, v, e, hd, htok, hv, hel, ?_⟩
  split_ifs at h with h1 h2 h3 h4 h5
  refine ⟨by simpa using h1, h2, by simpa using h3,
    by simpa using h4, by simpa using h5, ?_⟩
  split at h
  · rename_i m hm
    exact Or.inl ⟨⟨m, hm⟩, (by cases h; rfl)⟩
  · rename_i hm
    exact Or.inr ⟨hm, (by cases h; rfl)⟩

theorem cast_ok_inv {s : DB} {now option_id election_id : Nat}
    {btok receipt : String} {res : String × String} {s₁ : DB}
    (h : cast_vote s now btok option_id election_id receipt = .ok (res, s₁)) :
    ∃ bt e key, lookupBlind s btok election_id = some bt ∧
      bt.is_used = false ∧
      lookupElection s election_id = some e ∧ e.status = "open" ∧
      e.encryption_key = some key ∧
      res = (receipt,
        (castWrite s now option_id election_id receipt key bt.id).2) ∧
      s₁ = (castWrite s now option_id election_id receipt key bt.id).1 := by
  unfold cast_vote at h
  split at h
  · cases h
  rename_i bt hbt
  refine ⟨bt, ?_⟩
  split at h
  · cases h
  rename_i h1
  split at h
  · cases h
  rename_i e hel
  refine ⟨e, ?_⟩
  split at h
  · cases h
  rename_i h2
  split at h
  · cases h
  rename_i h3
  split at h
  · cases h
  rename_i key hk
  cases h
  exact ⟨key, hbt, by simpa using h1, hel, by simpa using h2, hk, rfl, rfl⟩

/-! Field preservation of the row updates. -/

theorem markVoted_email (vid : Nat) (v : Voter) :
    (markVoted vid v).email = v.email := by
  unfold markVoted; split <;> rfl

theorem markVoted_dob (vid : Nat) (v : Voter) :
    (markVoted vid v).date_of_birth = v.date_of_birth := by
  unfold markVoted; split <;> rfl

theorem markTokenUsed_token (tid now : Nat) (t : VotingToken) :
    (markTokenUsed tid now t).token = t.token := by
  unfold markTokenUsed; split <;> rfl

theorem markTokenUsed_election_id (tid now : Nat) (t : VotingToken) :
    (markTokenUsed tid now t).election_id = t.election_id := by
  unfold markTokenUsed; split <;> rfl

theorem markTokenUsed_voter_id (tid now : Nat) (t : VotingToken) :
    (markTokenUsed tid now t).voter_id = t.voter_id := by
  unfold markTokenUsed; split <;> rfl

theorem markTokenUsed_mono (tid now : Nat) (t : VotingToken)
    (h : t.is_used = true) : (markTokenUsed tid now t).is_used = true := by
  unfold markTokenUsed; split <;> simpa

theorem markTokenUsed_self (now : Nat) (t : VotingToken) :
    markTokenUsed t.id now t = { t with is_used := true, used_at := some now } := by
  simp [markTokenUsed]

theorem markBlindUsed_token (btid now : Nat) (t : BlindToken) :
    (markBlindUsed btid now t).ballot_token = t.ballot_token := by
  unfold markBlindUsed; split <;> rfl

theorem markBlindUsed_election_id (btid now : Nat) (t : BlindToken) :
    (markBlindUsed btid now t).election_id = t.election_id := by
  unfold markBlindUsed; split <;> rfl

theorem markBlindUsed_mono (btid now : Nat) (t : BlindToken)
    (h : t.is_used = true) : (markBlindUsed btid now t).is_used = true := by
  unfold markBlindUsed; split <;> simpa

theorem markBlindUsed_self (now : Nat) (t : BlindToken) :
    markBlindUsed t.id now t = { t with is_used := true, used_at := some now } := by
  simp [markBlindUsed]

/-! Effect of one operation on each part of the state. -/

theorem applyOp_elections (s : DB) (op : Op) :
    (applyOp s op).elections = s.elections := by
  cases op with
  | verifyIdentity now t d =>
    simp only [applyOp]
    cases hv : verify_identity s now t d with
    | error e => rfl
    | ok s1 =>
      obtain ⟨d', vt, v, e, -, -, -, -, -, -, -, -, -, hcase⟩ := verify_ok_inv hv
      rcases hcase with ⟨-, rfl⟩ | ⟨-, rfl⟩ <;> rfl
  | issueBallot now t f =>
    simp only [applyOp]
    cases hi : issue_ballot_token s now t f with
    | error e => rfl
    | ok p =>
      obtain ⟨r, s₁⟩ := p
      obtain ⟨vt, e, -, -, -, -, -, -, -, -, rfl⟩ := issue_ok_inv hi
      rfl
  | castVote now b o eid rc =>
    simp only [applyOp]
    cases hc : cast_vote s now b o eid rc with
    | error e => rfl
    | ok p =>
      obtain ⟨res, s₁⟩ := p
      obtain ⟨bt, e, key, -, -, -, -, -, -, rfl⟩ := cast_ok_inv hc
      rfl
  | validate now t => rfl
  | mfaStatus t => rfl
  | auditTrail eid => rfl
  | verifyReceipt r => rfl

theorem lookupElection_applyOp (s : DB) (op : Op) (eid : Nat) :
    lookupElection (applyOp s op) eid = lookupElection s eid := by
  unfold lookupElection; rw [applyOp_elections]

theorem identityStrings_applyOp (s : DB) (op : Op) :
    identityStrings (applyOp s op) = identityStrings s := by
  cases op with
  | verifyIdentity now t d =>
    simp only [applyOp]
    cases hv : verify_identity s now t d with
    | error e => rfl
    | ok s1 =>
      obtain ⟨d', vt, v, e, -, -, -, -, -, -, -, -, -, hcase⟩ := verify_ok_inv hv
      rcases hcase with ⟨-, rfl⟩ | ⟨-, rfl⟩ <;> rfl
  | issueBallot now t f =>
    simp only [applyOp]
    cases hi : issue_ballot_token s now t f with
    | error e => rfl
    | ok p =>
      obtain ⟨r, s₁⟩ := p
      obtain ⟨vt, e, -, -, -, -, -, -, -, -, rfl⟩ := issue_ok_inv hi
      unfold identityStrings bridgeWrite
      simp only
      rw [map_map_eq_of _ _ (markVoted_email vt.voter_id),
          map_map_eq_of _ _ (fun (v : Voter) => congrArg Date.iso (markVoted_dob vt.voter_id v)),
          map_map_eq_of _ _ (markTokenUsed_token vt.id now)]
  | castVote now b o eid rc =>
    simp only [applyOp]
    cases hc : cast_vote s now b o eid rc with
    | error e => rfl
    | ok p =>
      obtain ⟨res, s₁⟩ := p
      obtain ⟨bt, e, key, -, -, -, -, -, -, rfl⟩ := cast_ok_inv hc
      rfl
  | validate now t => rfl
  | mfaStatus t => rfl
  | auditTrail eid => rfl
  | verifyReceipt r => rfl

/-! Hash-chain well-formedness of the stored ledger. -/

theorem chainTip_spec (l : List EncryptedBallot) :
    ∀ tip, chainTip tip l =
      match l.getLast? with
      | some b => some b.ballot_hash
      | none => tip := by
  induction l with
  | nil => intro tip; rfl
  | cons a t ih =>
    intro tip
    cases t with
    | nil => simp [chainTip]
    | cons c t2 =>
      rw [List.getLast?_cons_cons]
      have h2 := ih (some a.ballot_hash)
      rcases hg : (c :: t2).getLast? with - | b
      · simp at hg
      · rw [hg] at h2
        simpa [chainTip] using h2

theorem chainTip_none (l : List EncryptedBallot) :
    chainTip none l = l.getLast?.map (fun b => b.ballot_hash) := by
  rw [chainTip_spec]
  cases l.getLast? <;> rfl

theorem listChainOk_concat (b : EncryptedBallot) (l : List EncryptedBallot) :
    ∀ tip, listChainOk tip (l ++ [b]) =
      (listChainOk tip l && (b.previous_hash == chainTip tip l)) := by
  induction l with
  | nil => intro tip; simp [listChainOk, chainTip]
  | cons a t ih =>
    intro tip
    simp only [List.cons_append, listChainOk, chainTip, List.append_eq]
    rw [ih, Bool.and_assoc]

theorem ballotsFor_castWrite (s : DB) (now option_id election_id : Nat)
    (receipt key : String) (btid : Nat) (eid : Nat) :
    ballotsFor (castWrite s now option_id election_id receipt key btid).1 eid =
      if election_id == eid then
        ballotsFor s eid ++
          [⟨s.next_ballot_id, election_id,
            pgpSymEncrypt (toString option_id) key,
            (ballotsFor s election_id).getLast?.map (fun b => b.ballot_hash),
            ballotHash election_id (pgpSymEncrypt (toString option_id) key)
              ((ballotsFor s election_id).getLast?.map (fun b => b.ballot_hash))
              s.next_ballot_id,
            receipt, now⟩]
      else ballotsFor s eid := by
  unfold castWrite ballotsFor
  simp only [List.filter_append]
  cases he : election_id == eid <;> simp [List.filter, he]

theorem chainOk_applyOp (s : DB) (op : Op) (h : ChainOk s) :
    ChainOk (applyOp s op) := by
  cases op with
  | verifyIdentity now t d =>
    intro eid
    simp only [applyOp]
    cases hv : verify_identity s now t d with
    | error e => exact h eid
    | ok s1 =>
      obtain ⟨d', vt, v, e, -, -, -, -, -, -, -, -, -, hcase⟩ := verify_ok_inv hv
      rcases hcase with ⟨-, rfl⟩ | ⟨-, rfl⟩ <;> exact h eid
  | issueBallot now t f =>
    intro eid
    simp only [applyOp]
    cases hi : issue_ballot_token s now t f with
    | error e => exact h eid
    | ok p =>
      obtain ⟨r, s₁⟩ := p
      obtain ⟨vt, e, -, -, -, -, -, -, -, -, rfl⟩ := issue_ok_inv hi
      exact h eid
  | castVote now b o eid2 rc =>
    intro eid
    simp only [applyOp]
    cases hc : cast_vote s now b o eid2 rc with
    | error e => exact h eid
    | ok p =>
      obtain ⟨res, s₁⟩ := p
      obtain ⟨bt, e, key, -, -, -, -, -, -, rfl⟩ := cast_ok_inv hc
      rw [ballotsFor_castWrite]
      by_cases heq : eid2 = eid
      · subst heq
        rw [if_pos (by simp : ((eid2 == eid2) = true))]
        rw [listChainOk_concat]
        simp only [Bool.and_eq_true]
        refine ⟨h eid2, ?_⟩
        rw [chainTip_none]
        simp
      · rw [if_neg (by simpa using heq)]
        exact h eid
  | validate now t => exact h
  | mfaStatus t => exact h
  | auditTrail eid => exact h
  | verifyReceipt r => exact h

theorem chainOk_run (s : DB) (ops : List Op) (h : ChainOk s) :
    ChainOk (run s ops) := by
  induction ops generalizing s with
  | nil => exact h
  | cons op ops ih => exact ih (applyOp s op) (chainOk_applyOp s op h)

/-! Consumed credentials stay consumed: once a voting token or blind
token row is marked used, every later lookup still finds it used. -/

theorem voting_tokens_applyOp (s : DB) (op : Op) :
    ∃ g : VotingToken → VotingToken,
      (applyOp s op).voting_tokens = s.voting_tokens.map g ∧
      ∀ x, (g x).token = x.token ∧ (g x).election_id = x.election_id ∧
        (g x).voter_id = x.voter_id ∧ (x.is_used = true → (g x).is_used = true) := by
  have hid : ∀ (s' : DB), s'.voting_tokens = s'.voting_tokens.map id ∧
      ∀ x : VotingToken, (id x).token = x.token ∧ (id x).election_id = x.election_id ∧
        (id x).voter_id = x.voter_id ∧ (x.is_used = true → (id x).is_used = true) := by
    intro s'
    exact ⟨(List.map_id _).symm, fun x => ⟨rfl, rfl, rfl, fun h => h⟩⟩
  cases op with
  | verifyIdentity now t d =>
    simp only [applyOp]
    cases hv : verify_identity s now t d with
    | error e => exact ⟨id, hid _⟩
    | ok s1 =>
      obtain ⟨d', vt, v, e, -, -, -, -, -, -, -, -, -, hcase⟩ := verify_ok_inv hv
      rcases hcase with ⟨-, rfl⟩ | ⟨-, rfl⟩
      · exact ⟨id, hid _⟩
      · exact ⟨id, hid _⟩
  | issueBallot now t f =>
    simp only [applyOp]
    cases hi : issue_ballot_token s now t f with
    | error e => exact ⟨id, hid _⟩
    | ok p =>
      obtain ⟨r, s₁⟩ := p
      obtain ⟨vt, e, -, -, -, -, -, -, -, -, rfl⟩ := issue_ok_inv hi
      refine ⟨markTokenUsed vt.id now, rfl, fun x => ?_⟩
      exact ⟨markTokenUsed_token _ _ _, markTokenUsed_election_id _ _ _,
        markTokenUsed_voter_id _ _ _, markTokenUsed_mono _ _ _⟩
  | castVote now b o eid rc =>
    simp only [applyOp]
    cases hc : cast_vote s now b o eid rc with
    | error e => exact ⟨id, hid _⟩
    | ok p =>
      obtain ⟨res, s₁⟩ := p
      obtain ⟨bt, e, key, -, -, -, -, -, -, rfl⟩ := cast_ok_inv hc
      exact ⟨id, hid _⟩
  | validate now t => exact ⟨id, hid _⟩
  | mfaStatus t => exact ⟨id, hid _⟩
  | auditTrail eid => exact ⟨id, hid _⟩
  | verifyReceipt r => exact ⟨id, hid _⟩

theorem tokenDead_applyOp {s : DB} {tok : String} (op : Op)
    (h : TokenDead s tok) : TokenDead (applyOp s op) tok := by
  obtain ⟨vt, hvt, hused, hel⟩ := h
  obtain ⟨g, hmap, hg⟩ := voting_tokens_applyOp s op
  refine ⟨g vt, ?_, (hg vt).2.2.2 hused, ?_⟩
  · unfold lookupTok at hvt ⊢
    rw [hmap, find?_map_pred g _ (fun x => by rw [(hg x).1]), hvt]
    rfl
  · rw [(hg vt).2.1, lookupElection_applyOp]
    exact hel

theorem tokenDead_run {s : DB} {tok : String} (ops : List Op)
    (h : TokenDead s tok) : TokenDead (run s ops) tok := by
  induction ops generalizing s with
  | nil => exact h
  | cons op ops ih => exact ih (tokenDead_applyOp op h)

theorem issue_dead {s : DB} {tok : String} (now : Nat) (fresh : String)
    (h : TokenDead s tok) :
    issue_ballot_token s now tok fresh = .error .alreadyUsed := by
  obtain ⟨vt, hvt, hused, hel⟩ := h
  unfold issue_ballot_token
  split
  · rename_i h0
    rw [h0] at hvt; cases hvt
  rename_i vt2 hvt2
  rw [hvt2] at hvt
  injection hvt with hvteq
  subst hvteq
  split
  · rename_i h0
    rw [h0] at hel; cases hel
  rename_i e he
  rw [if_pos hused]

theorem issue_ok_dead {s : DB} {now : Nat} {tok fresh : String}
    {r : String × Nat} {s₁ : DB}
    (h : issue_ballot_token s now tok fresh = .ok (r, s₁)) :
    TokenDead s₁ tok := by
  obtain ⟨vt, e, hvt, hel, -, -, -, -, -, -, rfl⟩ := issue_ok_inv h
  refine ⟨markTokenUsed vt.id now vt, ?_, ?_, ?_⟩
  · unfold lookupTok bridgeWrite
    simp only
    rw [find?_map_pred _ _ (fun x => by rw [markTokenUsed_token])]
    unfold lookupTok at hvt
    rw [hvt]
    rfl
  · rw [markTokenUsed_self]
  · rw [markTokenUsed_election_id]
    have : lookupElection (bridgeWrite s now fresh vt) vt.election_id =
        lookupElection s vt.election_id := rfl
    rw [this, hel]
    rfl

theorem countIssue_dead {s : DB} {tok : String} (ops : List Op)
    (h : TokenDead s tok) : countIssueSuccess s tok ops = 0 := by
  induction ops generalizing s with
  | nil => rfl
  | cons op ops ih =>
    have htail : countIssueSuccess (applyOp s op) tok ops = 0 :=
      ih (tokenDead_applyOp op h)
    cases op with
    | issueBallot now t f =>
      simp only [countIssueSuccess, htail, Nat.add_zero]
      rcases ht : t == tok with - | -
      · simp
      · have : t = tok := by simpa using ht
        subst this
        simp [issueSucceeds, issue_dead now f h]
    | validate now t => simpa [countIssueSuccess] using htail
    | mfaStatus t => simpa [countIssueSuccess] using htail
    | verifyIdentity now t d => simpa [countIssueSuccess] using htail
    | castVote now b o e rc => simpa [countIssueSuccess] using htail
    | auditTrail e => simpa [countIssueSuccess] using htail
    | verifyReceipt rc => simpa [countIssueSuccess] using htail

theorem countIssue_le_one (ops : List Op) :
    ∀ (s : DB) (tok : String), countIssueSuccess s tok ops ≤ 1 := by
  induction ops with
  | nil => intro s tok; exact Nat.zero_le 1
  | cons op ops ih =>
    intro s tok
    cases op with
    | issueBallot now t f =>
      simp only [countIssueSuccess]
      rcases hcond : t == tok && issueSucceeds s now t f with - | -
      · simp only [hcond, Bool.false_eq_true, if_false, Nat.zero_add]
        exact ih (applyOp s (.issueBallot now t f)) tok
      · rw [if_pos rfl]
        have ht : t = tok := by
          have := (Bool.and_eq_true _ _).mp hcond
          simpa using this.1
        have hsucc : issueSucceeds s now t f = true :=
          ((Bool.and_eq_true _ _).mp hcond).2
        subst ht
        unfold issueSucceeds at hsucc
        rcases hi : issue_ballot_token s now t f with e | p
        · rw [hi] at hsucc; cases hsucc
        · obtain ⟨r, s₁⟩ := p
          have happ : applyOp s (.issueBallot now t f) = s₁ := by
            simp [applyOp, hi]
          rw [happ, countIssue_dead ops (issue_ok_dead hi)]
    | validate now t =>
      simpa [countIssueSuccess] using ih (applyOp s (.validate now t)) tok
    | mfaStatus t =>
      simpa [countIssueSuccess] using ih (applyOp s (.mfaStatus t)) tok
    | verifyIdentity now t d =>
      simpa [countIssueSuccess] using ih (applyOp s (.verifyIdentity now t d)) tok
    | castVote now b o e rc =>
      simpa [countIssueSuccess] using ih (applyOp s (.castVote now b o e rc)) tok
    | auditTrail e =>
      simpa [countIssueSuccess] using ih (applyOp s (.auditTrail e)) tok
    | verifyReceipt rc =>
      simpa [countIssueSuccess] using ih (applyOp s (.verifyReceipt rc)) tok

theorem blind_tokens_applyOp (s : DB) (op : Op) :
    ∃ (g : BlindToken → BlindToken) (tail : List BlindToken),
      (applyOp s op).blind_tokens = s.blind_tokens.map g ++ tail ∧
      ∀ x, (g x).ballot_token = x.ballot_token ∧
        (g x).election_id = x.election_id ∧
        (x.is_used = true → (g x).is_used = true) := by
  have hid : ∀ (s' : DB), s'.blind_tokens = s'.blind_tokens.map id ++ [] ∧
      ∀ x : BlindToken, (id x).ballot_token = x.ballot_token ∧
        (id x).election_id = x.election_id ∧
        (x.is_used = true → (id x).is_used = true) := by
    intro s'
    exact ⟨by simp, fun x => ⟨rfl, rfl, fun h => h⟩⟩
  cases op with
  | verifyIdentity now t d =>
    simp only [applyOp]
    cases hv : verify_identity s now t d with
    | error e => exact ⟨id, [], hid _⟩
    | ok s1 =>
      obtain ⟨d', vt, v, e, -, -, -, -, -, -, -, -, -, hcase⟩ := verify_ok_inv hv
      rcases hcase with ⟨-, rfl⟩ | ⟨-, rfl⟩
      · exact ⟨id, [], hid _⟩
      · exact ⟨id, [], hid _⟩
  | issueBallot now t f =>
    simp only [applyOp]
    cases hi : issue_ballot_token s now t f with
    | error e => exact ⟨id, [], hid _⟩
    | ok p =>
      obtain ⟨r, s₁⟩ := p
      obtain ⟨vt, e, -, -, -, -, -, -, -, -, rfl⟩ := issue_ok_inv hi
      refine ⟨id, [⟨s.next_blind_id, f, vt.election_id, false, none⟩], ?_,
        fun x => ⟨rfl, rfl, fun h => h⟩⟩
      simp [bridgeWrite]
  | castVote now b o eid rc =>
    simp only [applyOp]
    cases hc : cast_vote s now b o eid rc with
    | error e => exact ⟨id, [], hid _⟩
    | ok p =>
      obtain ⟨res, s₁⟩ := p
      obtain ⟨bt, e, key, -, -, -, -, -, -, rfl⟩ := cast_ok_inv hc
      refine ⟨markBlindUsed bt.id now, [], ?_, fun x =>
        ⟨markBlindUsed_token _ _ _, markBlindUsed_election_id _ _ _,
         markBlindUsed_mono _ _ _⟩⟩
      simp [castWrite]
  | validate now t => exact ⟨id, [], hid _⟩
  | mfaStatus t => exact ⟨id, [], hid _⟩
  | auditTrail eid => exact ⟨id, [], hid _⟩
  | verifyReceipt r => exact ⟨id, [], hid _⟩

theorem blindDead_applyOp {s : DB} {b : String} {eid : Nat} (op : Op)
    (h : BlindDead s b eid) : BlindDead (applyOp s op) b eid := by
  obtain ⟨bt, hbt, hused⟩ := h
  obtain ⟨g, tail, hmap, hg⟩ := blind_tokens_applyOp s op
  refine ⟨g bt, ?_, (hg bt).2.2 hused⟩
  unfold lookupBlind at hbt ⊢
  rw [hmap]
  apply find?_append_some
  rw [find?_map_pred g _ (fun x => by rw [(hg x).1, (hg x).2.1]), hbt]
  rfl

theorem blindDead_run {s : DB} {b : String} {eid : Nat} (ops : List Op)
    (h : BlindDead s b eid) : BlindDead (run s ops) b eid := by
  induction ops generalizing s with
  | nil => exact h
  | cons op ops ih => exact ih (blindDead_applyOp op h)

theorem cast_dead {s : DB} {b : String} {eid : Nat} (now o : Nat)
    (rc : String) (h : BlindDead s b eid) :
    cast_vote s now b o eid rc = .error .alreadyUsed := by
  obtain ⟨bt, hbt, hused⟩ := h
  unfold cast_vote
  split
  · rename_i h0
    rw [h0] at hbt; cases hbt
  rename_i bt2 hbt2
  rw [hbt2] at hbt
  injection hbt with hbteq
  subst hbteq
  rw [if_pos hused]

theorem cast_ok_dead {s : DB} {now o eid : Nat} {b rc : String}
    {res : String × String} {s₁ : DB}
    (h : cast_vote s now b o eid rc = .ok (res, s₁)) :
    BlindDead s₁ b eid := by
  obtain ⟨bt, e, key, hbt, -, -, -, -, -, rfl⟩ := cast_ok_inv h
  refine ⟨markBlindUsed bt.id now bt, ?_, ?_⟩
  · unfold lookupBlind castWrite
    simp only
    rw [find?_map_pred _ _
      (fun x => by rw [markBlindUsed_token, markBlindUsed_election_id])]
    unfold lookupBlind at hbt
    rw [hbt]
    rfl
  · rw [markBlindUsed_self]

theorem countCast_dead {s : DB} {btok : String} {eid : Nat} (ops : List Op)
    (h : BlindDead s btok eid) : countCastSuccess s btok eid ops = 0 := by
  induction ops generalizing s with
  | nil => rfl
  | cons op ops ih =>
    have htail : countCastSuccess (applyOp s op) btok eid ops = 0 :=
      ih (blindDead_applyOp op h)
    cases op with
    | castVote now b o e rc =>
      simp only [countCastSuccess, htail, Nat.add_zero]
      rcases hb : b == btok with - | -
      · simp
      · rcases he : e == eid with - | -
        · simp [hb]
        · have hb2 : b = btok := by simpa using hb
          have he2 : e = eid := by simpa using he
          subst hb2; subst he2
          simp [castSucceeds, cast_dead now o rc h]
    | validate now t => simpa [countCastSuccess] using htail
    | mfaStatus t => simpa [countCastSuccess] using htail
    | verifyIdentity now t d => simpa [countCastSuccess] using htail
    | issueBallot now t f => simpa [countCastSuccess] using htail
    | auditTrail e => simpa [countCastSuccess] using htail
    | verifyReceipt rc => simpa [countCastSuccess] using htail

theorem countCast_le_one (ops : List Op) :
    ∀ (s : DB) (btok : String) (eid : Nat),
      countCastSuccess s btok eid ops ≤ 1 := by
  induction ops with
  | nil => intro s btok eid; exact Nat.zero_le 1
  | cons op ops ih =>
    intro s btok eid
    cases op with
    | castVote now b o e rc =>
      simp only [countCastSuccess]
      rcases hcond : b == btok && e == eid && castSucceeds s now b o e rc with - | -
      · simp only [hcond, Bool.false_eq_true, if_false, Nat.zero_add]
        exact ih (applyOp s (.castVote now b o e rc)) btok eid
      · rw [if_pos rfl]
        obtain ⟨hb, he, hsucc⟩ : b = btok ∧ e = eid ∧
            castSucceeds s now b o e rc = true := by
          have h1 := (Bool.and_eq_true _ _).mp hcond
          have h2 := (Bool.and_eq_true _ _).mp h1.1
          exact ⟨by simpa using h2.1, by simpa using h2.2, h1.2⟩
        subst hb; subst he
        unfold castSucceeds at hsucc
        rcases hc : cast_vote s now b o e rc with err | p
        · rw [hc] at hsucc; cases hsucc
        · obtain ⟨res, s₁⟩ := p
          have happ : applyOp s (.castVote now b o e rc) = s₁ := by
            simp [applyOp, hc]
          rw [happ, countCast_dead ops (cast_ok_dead hc)]
    | validate now t =>
      simpa [countCastSuccess] using ih (applyOp s (.validate now t)) btok eid
    | mfaStatus t =>
      simpa [countCastSuccess] using ih (applyOp s (.mfaStatus t)) btok eid
    | verifyIdentity now t d =>
      simpa [countCastSuccess] using
        ih (applyOp s (.verifyIdentity now t d)) btok eid
    | issueBallot now t f =>
      simpa [countCastSuccess] using
        ih (applyOp s (.issueBallot now t f)) btok eid
    | auditTrail e =>
      simpa [countCastSuccess] using ih (applyOp s (.auditTrail e)) btok eid
    | verifyReceipt rc =>
      simpa [countCastSuccess] using ih (applyOp s (.verifyReceipt rc)) btok eid

/-! Unlinkability: schema-level facts about each table's rows. -/

theorem valEq_natOpt_s (u : Option Nat) (c : String) :
    valEq (natOpt u) (.s c) = false := by
  cases u <;> rfl

theorem valEq_strOpt_s (u : Option String) (c : String) :
    valEq (strOpt u) (.s c) = (match u with | some x => x == c | none => false) := by
  cases u <;> rfl

theorem refs_voterRow (v : Voter) (vid : Nat) :
    refsVoterId (voterRow v) vid = (v.id == vid) := by
  simp [refsVoterId, voterRow, isVoterIdCol, isIdCol, isVotersTable, valEq]

theorem refs_votingTokenRow (vt : VotingToken) (vid : Nat) :
    refsVoterId (votingTokenRow vt) vid = (vt.voter_id == vid) := by
  simp [refsVoterId, votingTokenRow, isVoterIdCol, isIdCol, isVotersTable, valEq]

theorem refs_mfaRow (m : MfaRecord) (vid : Nat) :
    refsVoterId (mfaRow m) vid = false := by
  simp [refsVoterId, mfaRow, isVoterIdCol, isIdCol, isVotersTable]

theorem refs_electionRow (e : Election) (vid : Nat) :
    refsVoterId (electionRow e) vid = false := by
  simp [refsVoterId, electionRow, isVoterIdCol, isIdCol, isVotersTable]

theorem refs_optionRow (o : ElectionOption) (vid : Nat) :
    refsVoterId (optionRow o) vid = false := by
  simp [refsVoterId, optionRow, isVoterIdCol, isIdCol, isVotersTable]

theorem refs_blindRow (bt : BlindToken) (vid : Nat) :
    refsVoterId (blindRow bt) vid = false := by
  simp [refsVoterId, blindRow, isVoterIdCol, isIdCol, isVotersTable]

theorem refs_ballotRow (b : EncryptedBallot) (vid : Nat) :
    refsVoterId (ballotRow b) vid = false := by
  simp [refsVoterId, ballotRow, isVoterIdCol, isIdCol, isVotersTable]

theorem refs_receiptRow (r : VoteReceipt) (vid : Nat) :
    refsVoterId (receiptRow r) vid = false := by
  simp [refsVoterId, receiptRow, isVoterIdCol, isIdCol, isVotersTable]

theorem refs_auditRow (a : AuditEntry) (vid : Nat) :
    refsVoterId (auditRow a) vid = false := by
  simp [refsVoterId, auditRow, isVoterIdCol, isIdCol, isVotersTable]

theorem mentions_voterRow (v : Voter) (c : String)
    (h : mentionsVal (voterRow v).2 c = true) :
    c = v.email ∨ c = v.date_of_birth.iso := by
  simp only [mentionsVal, voterRow, List.any_cons, List.any_nil, valEq,
    Bool.or_false, Bool.false_or, Bool.or_eq_true, beq_iff_eq] at h
  rcases h with h | h
  · exact Or.inl h.symm
  · exact Or.inr h.symm

theorem mentions_votingTokenRow (vt : VotingToken) (c : String)
    (h : mentionsVal (votingTokenRow vt).2 c = true) : c = vt.token := by
  obtain ⟨i, tk, vd, ed, ex, us, ua⟩ := vt
  cases ua <;>
    (simp only [mentionsVal, votingTokenRow, List.any_cons, List.any_nil,
      valEq, natOpt, Bool.or_false, Bool.false_or, Bool.or_eq_true,
      beq_iff_eq] at h
     exact h.symm)

theorem contains_of_mem_identityStrings {s : DB} {c : String}
    (h : c ∈ identityStrings s) : (identityStrings s).contains c = true := by
  exact List.elem_eq_true_of_mem h

theorem credFresh_unlinked (s : DB) (h : credFresh s = true) :
    unlinked s = true := by
  have hfresh : ∀ c ∈ credValues s, c ∉ identityStrings s := by
    intro c hc hmem
    unfold credFresh at h
    rw [List.all_eq_true] at h
    have := h c hc
    rw [contains_of_mem_identityStrings hmem] at this
    cases this
  unfold unlinked
  rw [List.all_eq_true]
  intro t ht
  rw [List.all_eq_true]
  intro vid hvid
  rw [List.all_eq_true]
  intro c hc
  rw [Bool.not_eq_true']
  unfold persistedRows at ht
  simp only [List.mem_append, List.mem_map] at ht
  rcases ht with ((((((((⟨v, hv, rfl⟩ | ⟨vt, hvt, rfl⟩) | ⟨m, -, rfl⟩) |
    ⟨e, -, rfl⟩) | ⟨o, -, rfl⟩) | ⟨bt, -, rfl⟩) | ⟨b, -, rfl⟩) |
    ⟨r, -, rfl⟩) | ⟨a, -, rfl⟩)
  · rw [refs_voterRow]
    cases hm : mentionsVal (voterRow v).2 c with
    | false => simp
    | true =>
      exfalso
      refine hfresh c hc ?_
      unfold identityStrings
      rcases mentions_voterRow v c hm with rfl | rfl
      · exact List.mem_append_left _
          (List.mem_append_left _ (List.mem_map_of_mem _ hv))
      · exact List.mem_append_left _
          (List.mem_append_right _ (List.mem_map_of_mem _ hv))
  · rw [refs_votingTokenRow]
    cases hm : mentionsVal (votingTokenRow vt).2 c with
    | false => simp
    | true =>
      exfalso
      refine hfresh c hc ?_
      unfold identityStrings
      rcases mentions_votingTokenRow vt c hm with rfl
      exact List.mem_append_right _ (List.mem_map_of_mem _ hvt)
  · rw [refs_mfaRow]; rfl
  · rw [refs_electionRow]; rfl
  · rw [refs_optionRow]; rfl
  · rw [refs_blindRow]; rfl
  · rw [refs_ballotRow]; rfl
  · rw [refs_receiptRow]; rfl
  · rw [refs_auditRow]; rfl

theorem credValues_applyOp (s : DB) (op : Op) :
    credValues (applyOp s op) = credValues s ∨
    ∃ now t f, op = .issueBallot now t f ∧
      credValues (applyOp s op) = credValues s ++ [f] := by
  cases op with
  | verifyIdentity now t d =>
    left
    simp only [applyOp]
    cases hv : verify_identity s now t d with
    | error e => rfl
    | ok s1 =>
      obtain ⟨d', vt, v, e, -, -, -, -, -, -, -, -, -, hcase⟩ := verify_ok_inv hv
      rcases hcase with ⟨-, rfl⟩ | ⟨-, rfl⟩ <;> rfl
  | issueBallot now t f =>
    simp only [applyOp]
    cases hi : issue_ballot_token s now t f with
    | error e => exact Or.inl rfl
    | ok p =>
      obtain ⟨r, s₁⟩ := p
      obtain ⟨vt, e, -, -, -, -, -, -, -, -, rfl⟩ := issue_ok_inv hi
      right
      exact ⟨now, t, f, rfl, by simp [credValues, bridgeWrite]⟩
  | castVote now b o eid rc =>
    left
    simp only [applyOp]
    cases hc : cast_vote s now b o eid rc with
    | error e => rfl
    | ok p =>
      obtain ⟨res, s₁⟩ := p
      obtain ⟨bt, e, key, -, -, -, -, -, -, rfl⟩ := cast_ok_inv hc
      unfold credValues castWrite
      simp only
      exact map_map_eq_of _ _ (markBlindUsed_token bt.id now) _
  | validate now t => exact Or.inl rfl
  | mfaStatus t => exact Or.inl rfl
  | auditTrail eid => exact Or.inl rfl
  | verifyReceipt r => exact Or.inl rfl

theorem credFresh_applyOp (s : DB) (op : Op) (h : credFresh s = true)
    (hf : opFreshOk (identityStrings s) op = true) :
    credFresh (applyOp s op) = true := by
  unfold credFresh at h ⊢
  rw [identityStrings_applyOp]
  rcases credValues_applyOp s op with hsame | ⟨now, t, f, rfl, happ⟩
  · rw [hsame]; exact h
  · rw [happ, List.all_append]
    rw [Bool.and_eq_true]
    refine ⟨h, ?_⟩
    simpa [opFreshOk] using hf

theorem credFresh_run (s : DB) (ops : List Op) (h : credFresh s = true)
    (hops : freshOpsOk s ops = true) : credFresh (run s ops) = true := by
  induction ops generalizing s with
  | nil => exact h
  | cons op ops ih =>
    unfold freshOpsOk at hops
    rw [List.all_cons, Bool.and_eq_true] at hops
    refine ih (applyOp s op) (credFresh_applyOp s op h hops.1) ?_
    unfold freshOpsOk
    rw [identityStrings_applyOp]
    exact hops.2

/-! The audit verifier verdict as a chain relation. -/

theorem chainAux_iff (b : EncryptedBallot) (l : List EncryptedBallot) :
    chainAux b l = true ↔ List.Chain' chainRel (b :: l) := by
  induction l generalizing b with
  | nil => simp [chainAux]
  | cons c t ih =>
    rw [chainAux, Bool.and_eq_true, List.chain'_cons, beq_iff_eq]
    constructor
    · rintro ⟨h1, h2⟩
      exact ⟨h1, (ih c).mp h2⟩
    · rintro ⟨h1, h2⟩
      exact ⟨h1, (ih c).mpr h2⟩

theorem chainCheck_iff (l : List EncryptedBallot) :
    chainCheck l = true ↔ List.Chain' chainRel l := by
  cases l with
  | nil => simp [chainCheck]
  | cons b t =>
    show chainAux b t = true ↔ _
    exact chainAux_iff b t

theorem chainCheck_false_iff (l : List EncryptedBallot) :
    chainCheck l = false ↔ ∃ i, ∃ h : i + 1 < l.length,
      (l.get ⟨i + 1, h⟩).previous_hash ≠
        some ((l.get ⟨i, Nat.lt_of_succ_lt h⟩).ballot_hash) := by
  rw [← Bool.not_eq_true, chainCheck_iff, List.chain'_iff_get]
  push_neg
  constructor
  · rintro ⟨i, h, hne⟩
    exact ⟨i, by omega, hne⟩
  · rintro ⟨i, h, hne⟩
    exact ⟨i, by omega, hne⟩

theorem audit_ok_inv {s : DB} {eid : Nat} {resp : AuditResp}
    (h : get_audit_trail s eid = .ok resp) :
    ∃ e, lookupElection s eid = some e ∧ e.status = "closed" ∧
      resp = ⟨eid, (ballotsFor s eid).length, chainCheck (ballotsFor s eid),
        ballotsFor s eid⟩ := by
  unfold get_audit_trail at h
  split at h
  · cases h
  rename_i e hel
  split at h
  · cases h
  rename_i hst
  cases h
  exact ⟨e, hel, by simpa using hst, rfl⟩

/-! Claim theorems. -/

/-- C1: Unlinkability invariant.  In every state reachable by the core's
operations from a state where no credential value collides with an
identity-linked string, and with freshly generated credential values, no
persisted row references both a voter id and a BlindBallotCredential
value; and the bridge inserts the credential row carrying only the
ballot-token value and the election reference. -/
theorem C1_unlinkability :
    (∀ (s₀ : DB) (ops : List Op), credFresh s₀ = true →
      freshOpsOk s₀ ops = true → unlinked (run s₀ ops) = true) ∧
    (∀ (s : DB) (now : Nat) (tok fresh : String) (r : String × Nat) (s₁ : DB),
      issue_ballot_token s now tok fresh = .ok (r, s₁) →
      ∃ vt, lookupTok s tok = some vt ∧ r = (fresh, vt.election_id) ∧
        s₁.blind_tokens = s.blind_tokens ++
          [⟨s.next_blind_id, fresh, vt.election_id, false, none⟩]) := by
  constructor
  · intro s₀ ops h hops
    exact credFresh_unlinked _ (credFresh_run s₀ ops h hops)
  · intro s now tok fresh r s₁ h
    obtain ⟨vt, e, hvt, -, -, -, -, -, -, hr, rfl⟩ := issue_ok_inv h
    exact ⟨vt, hvt, hr, rfl⟩

/-- Witness for C1 on the fixture run: bridge then cast. -/
theorem C1_unlinkability_witness :
    unlinked (run db1 [.issueBallot 5 "tokA" "blindB",
      .castVote 7 "blindB" 7 1 "rcptR"]) = true :=
  C1_unlinkability.1 db1 _ (by decide) (by decide)

/-- C2: Single use of a voting token.  At most one bridge call per token
value ever succeeds along any run of core operations; the successful call
leaves the token marked used and the owning voter marked voted; every
later bridge call with the same token value fails with AlreadyUsed. -/
theorem C2_single_use_voting_token :
    (∀ (s : DB) (tok : String) (ops : List Op),
      countIssueSuccess s tok ops ≤ 1) ∧
    (∀ (s : DB) (now : Nat) (tok fresh : String) (r : String × Nat) (s₁ : DB),
      issue_ballot_token s now tok fresh = .ok (r, s₁) →
      (∃ vt, lookupTok s₁ tok = some vt ∧ vt.is_used = true ∧
        ∀ v ∈ s₁.voters, v.id = vt.voter_id → v.has_voted = true) ∧
      ∀ (ops : List Op) (now2 : Nat) (fresh2 : String),
        issue_ballot_token (run s₁ ops) now2 tok fresh2 =
          .error .alreadyUsed) := by
  refine ⟨fun s tok ops => countIssue_le_one ops s tok, ?_⟩
  intro s now tok fresh r s₁ h
  constructor
  · obtain ⟨vt, e, hvt, -, -, -, -, -, -, -, rfl⟩ := issue_ok_inv h
    refine ⟨markTokenUsed vt.id now vt, ?_, ?_, ?_⟩
    · unfold lookupTok bridgeWrite
      simp only
      rw [find?_map_pred _ _ (fun x => by rw [markTokenUsed_token])]
      unfold lookupTok at hvt
      rw [hvt]
      rfl
    · rw [markTokenUsed_self]
    · rw [markTokenUsed_voter_id]
      intro v hv hid
      have hv2 : v ∈ s.voters.map (markVoted vt.voter_id) := hv
      obtain ⟨v0, hv0, rfl⟩ := List.mem_map.mp hv2
      unfold markVoted at hid ⊢
      rcases hc : v0.id == vt.voter_id with - | -
      · rw [hc] at hid
        simp only [Bool.false_eq_true, if_false] at hid
        exact absurd hid (by simpa using hc)
      · simp
  · intro ops now2 fresh2
    exact issue_dead now2 fresh2 (tokenDead_run ops (issue_ok_dead h))

/-- Witness for C2: after a successful bridge call on the fixture, a
repeat call fails with AlreadyUsed. -/
theorem C2_single_use_voting_token_witness :
    issue_ballot_token (run db2 []) 6 "tokA" "blindC" = .error .alreadyUsed := by
  have h : issue_ballot_token db1 5 "tokA" "blindB" = .ok (("blindB", 1), db2) := by
    rfl
  exact (C2_single_use_voting_token.2 db1 5 "tokA" "blindB"
    ("blindB", 1) db2 h).2 [] 6 "blindC"

/-- C3: Precondition order of the anonymity bridge and rollback on
failure.  The bridge re-validates the token (NotFound, AlreadyUsed,
Expired, ElectionNotOpen, in that order), then requires the MFA record
(IdentityVerificationRequired), then checks the voter row (AlreadyVoted);
any error leaves the state unchanged. -/
theorem C3_bridge_precondition_order :
    ∀ (s : DB) (now : Nat) (tok fresh : String),
      (lookupTok s tok = none →
        issue_ballot_token s now tok fresh = .error .notFound) ∧
      (∀ vt e, lookupTok s tok = some vt →
        lookupElection s vt.election_id = some e →
        (vt.is_used = true →
          issue_ballot_token s now tok fresh = .error .alreadyUsed) ∧
        (vt.is_used = false → now > vt.expires_at →
          issue_ballot_token s now tok fresh = .error .expired) ∧
        (vt.is_used = false → ¬ now > vt.expires_at → e.status ≠ "open" →
          issue_ballot_token s now tok fresh = .error .electionNotOpen) ∧
        (vt.is_used = false → ¬ now > vt.expires_at → e.status = "open" →
          lookupMfa s tok = none →
          issue_ballot_token s now tok fresh =
            .error .identityVerificationRequired) ∧
        (∀ m, vt.is_used = false → ¬ now > vt.expires_at →
          e.status = "open" → lookupMfa s tok = some m →
          voterVoted (lookupVoter s vt.voter_id) = true →
          issue_ballot_token s now tok fresh = .error .alreadyVoted)) ∧
      (∀ err, issue_ballot_token s now tok fresh = .error err →
        applyOp s (.issueBallot now tok fresh) = s) := by
  intro s now tok fresh
  refine ⟨?_, ?_, ?_⟩
  · intro h
    simp [issue_ballot_token, h]
  · intro vt e hvt hel
    refine ⟨?_, ?_, ?_, ?_, ?_⟩
    · intro hu
      simp [issue_ballot_token, hvt, hel, hu]
    · intro hu hexp
      simp [issue_ballot_token, hvt, hel, hu, hexp]
    · intro hu hexp hst
      simp [issue_ballot_token, hvt, hel, hu, hexp, hst]
    · intro hu hexp hst hm
      simp [issue_ballot_token, hvt, hel, hu, hexp, hst, hm]
    · intro m hu hexp hst hm hvv
      simp [issue_ballot_token, hvt, hel, hu, hexp, hst, hm, hvv]
  · intro err h
    simp [applyOp, h]

/-- Witness for C3: on the fixture without an MFA record the bridge
fails with IdentityVerificationRequired and the state is unchanged. -/
theorem C3_bridge_precondition_order_witness :
    issue_ballot_token db0 5 "tokA" "freshF" =
      .error .identityVerificationRequired ∧
    applyOp db0 (.issueBallot 5 "tokA" "freshF") = db0 := by
  have h := (C3_bridge_precondition_order db0 5 "tokA" "freshF").2.1
    tok0 election0 (by decide) (by decide)
  have h1 := h.2.2.2.1 (by decide) (by decide) (by decide) (by decide)
  exact ⟨h1, (C3_bridge_precondition_order db0 5 "tokA" "freshF").2.2 _ h1⟩

/-- C4: Single use of a ballot credential.  At most one `cast_vote` per
credential value and election ever succeeds along any run; the successful
call marks the credential used in the same transaction that inserts the
ballot; every later cast presenting the same credential value for the
same election fails with AlreadyUsed. -/
theorem C4_single_use_ballot_credential :
    (∀ (s : DB) (btok : String) (eid : Nat) (ops : List Op),
      countCastSuccess s btok eid ops ≤ 1) ∧
    (∀ (s : DB) (now o eid : Nat) (btok rc : String)
      (res : String × String) (s₁ : DB),
      cast_vote s now btok o eid rc = .ok (res, s₁) →
      (∃ bt, lookupBlind s₁ btok eid = some bt ∧ bt.is_used = true) ∧
      s₁.encrypted_ballots.length = s.encrypted_ballots.length + 1 ∧
      ∀ (ops : List Op) (now2 o2 : Nat) (rc2 : String),
        cast_vote (run s₁ ops) now2 btok o2 eid rc2 =
          .error .alreadyUsed) := by
  refine ⟨fun s btok eid ops => countCast_le_one ops s btok eid, ?_⟩
  intro s now o eid btok rc res s₁ h
  refine ⟨cast_ok_dead h, ?_, ?_⟩
  · obtain ⟨bt, e, key, -, -, -, -, -, -, rfl⟩ := cast_ok_inv h
    simp [castWrite]
  · intro ops now2 o2 rc2
    exact cast_dead now2 o2 rc2 (blindDead_run ops (cast_ok_dead h))

/-- Witness for C4: after a successful cast on the fixture, a repeat cast
with the same credential fails with AlreadyUsed. -/
theorem C4_single_use_ballot_credential_witness :
    cast_vote (run dbB2 []) 8 "blindB" 7 1 "rcptS" = .error .alreadyUsed := by
  have h : cast_vote dbB 7 "blindB" 7 1 "rcptR" =
      .ok (("rcptR", (castWrite dbB 7 7 1 "rcptR" "key0" 1).2), dbB2) := by
    rfl
  exact (C4_single_use_ballot_credential.2 dbB 7 7 1 "blindB" "rcptR"
    _ dbB2 h).2.2 [] 8 7 "rcptS"

/-- C5: Hash-chain sentinel and tip.  Along any run from a state whose
per-election ledgers are well-formed chains, every ledger stays a
well-formed chain: the first ballot of an election carries the sentinel
(`NULL`, the source's `None`) as `previous_hash` and every later ballot
carries the previous ballot's hash.  Moreover a successful cast appends
exactly one ballot whose `previous_hash` is the current tip (the sentinel
when the election had no ballot). -/
theorem C5_hash_chain_sentinel :
    (∀ (s₀ : DB), ChainOk s₀ → ∀ (ops : List Op), ChainOk (run s₀ ops)) ∧
    (∀ (s : DB), ChainOk s → ∀ (eid : Nat) (b : EncryptedBallot)
      (rest : List EncryptedBallot), ballotsFor s eid = b :: rest →
      b.previous_hash = none) ∧
    (∀ (s : DB) (now o eid : Nat) (btok rc : String)
      (res : String × String) (s₁ : DB),
      cast_vote s now btok o eid rc = .ok (res, s₁) →
      ∃ nb, s₁.encrypted_ballots = s.encrypted_ballots ++ [nb] ∧
        nb.election_id = eid ∧
        nb.previous_hash =
          (ballotsFor s eid).getLast?.map (fun x => x.ballot_hash)) := by
  refine ⟨fun s₀ h ops => chainOk_run s₀ ops h, ?_, ?_⟩
  · intro s h eid b rest hb
    have := h eid
    rw [hb] at this
    unfold listChainOk at this
    rw [Bool.and_eq_true] at this
    simpa using this.1
  · intro s now o eid btok rc res s₁ h
    obtain ⟨bt, e, key, -, -, -, -, -, -, rfl⟩ := cast_ok_inv h
    refine ⟨_, rfl, rfl, rfl⟩

/-- Witness for C5: the ledger stays chain-valid after the fixture cast,
and the first ballot of an empty election carries the sentinel. -/
theorem C5_hash_chain_sentinel_witness :
    listChainOk none (ballotsFor (run dbB [.castVote 7 "blindB" 7 1 "rcptR"]) 1)
      = true :=
  C5_hash_chain_sentinel.1 dbB (fun eid => rfl) [.castVote 7 "blindB" 7 1 "rcptR"] 1

/-- C6: Audit verifier contract.  With the election present but not
closed the endpoint fails with AuditNotAvailable; on success it reports
the election's ballots in insertion order, their count, and a chain
verdict that is false exactly when some entry after the first does not
point at its predecessor's hash; and it never changes the state. -/
theorem C6_audit_verifier :
    ∀ (s : DB) (eid : Nat),
      (∀ e, lookupElection s eid = some e → e.status ≠ "closed" →
        get_audit_trail s eid = .error .auditNotAvailable) ∧
      (∀ resp, get_audit_trail s eid = .ok resp →
        (∃ e, lookupElection s eid = some e ∧ e.status = "closed") ∧
        resp.entries = ballotsFor s eid ∧
        resp.total_ballots = (ballotsFor s eid).length ∧
        (resp.hash_chain_valid = false ↔
          ∃ i, ∃ h : i + 1 < resp.entries.length,
            (resp.entries.get ⟨i + 1, h⟩).previous_hash ≠
              some ((resp.entries.get ⟨i, Nat.lt_of_succ_lt h⟩).ballot_hash))) ∧
      applyOp s (.auditTrail eid) = s := by
  intro s eid
  refine ⟨?_, ?_, rfl⟩
  · intro e hel hst
    simp [get_audit_trail, hel, hst]
  · intro resp h
    obtain ⟨e, hel, hst, rfl⟩ := audit_ok_inv h
    exact ⟨⟨e, hel, hst⟩, rfl, rfl, chainCheck_false_iff _⟩

/-- Witness for C6 on the closed fixture election with an empty ledger. -/
theorem C6_audit_verifier_witness :
    (⟨1, 0, true, []⟩ : AuditResp).total_ballots = (ballotsFor dbC 1).length :=
  ((C6_audit_verifier dbC 1).2.1 ⟨1, 0, true, []⟩ (by rfl)).2.2.1

/-- C7: validateToken contract.  NotFound when the token is unknown,
then AlreadyUsed, then Expired (now strictly past expiry), then
ElectionNotOpen, otherwise success with the token's election and voter
ids; and the call never writes. -/
theorem C7_validate_token_contract :
    ∀ (s : DB) (now : Nat) (tok : String),
      (lookupTok s tok = none →
        validate_voting_token s now tok = .error .notFound) ∧
      (∀ vt e, lookupTok s tok = some vt →
        lookupElection s vt.election_id = some e →
        (vt.is_used = true →
          validate_voting_token s now tok = .error .alreadyUsed) ∧
        (vt.is_used = false → now > vt.expires_at →
          validate_voting_token s now tok = .error .expired) ∧
        (vt.is_used = false → ¬ now > vt.expires_at → e.status ≠ "open" →
          validate_voting_token s now tok = .error .electionNotOpen) ∧
        (vt.is_used = false → ¬ now > vt.expires_at → e.status = "open" →
          validate_voting_token s now tok =
            .ok (vt.election_id, vt.voter_id))) ∧
      applyOp s (.validate now tok) = s := by
  intro s now tok
  refine ⟨?_, ?_, rfl⟩
  · intro h
    simp [validate_voting_token, h]
  · intro vt e hvt hel
    refine ⟨?_, ?_, ?_, ?_⟩
    · intro hu
      simp [validate_voting_token, hvt, hel, hu]
    · intro hu hexp
      simp [validate_voting_token, hvt, hel, hu, hexp]
    · intro hu hexp hst
      simp [validate_voting_token, hvt, hel, hu, hexp, hst]
    · intro hu hexp hst
      simp [validate_voting_token, hvt, hel, hu, hexp, hst]

/-- Witness for C7: the fixture token validates successfully. -/
theorem C7_validate_token_contract_witness :
    validate_voting_token db0 5 "tokA" = .ok (1, 1) :=
  ((C7_validate_token_contract db0 5 "tokA").2.1 tok0 election0
    (by rfl) (by rfl)).2.2.2 (by rfl) (by decide) (by rfl)

/-- C8 counterexample: a token that is both consumed and expired, with
the correct date of birth submitted at time 100 (past its expiry 10),
yields AlreadyUsed, not Expired — the `is_used` check precedes the
expiry check, so "any token whose expiry has passed" is too broad. -/
theorem C8_counterexample :
    lookupTok dbX "tokA" = some ⟨1, "tokA", 1, 1, 10, true, none⟩ ∧
    (100 > (10 : Nat)) ∧
    parseIsoDate "1990-06-15" = some voter0.date_of_birth ∧
    verify_identity dbX 100 "tokA" "1990-06-15" = .error .alreadyUsed ∧
    Err.alreadyUsed ≠ Err.expired :=
  ⟨by decide, by decide, by decide, by rfl, by decide⟩

/-- C8 (amended): for any found, unused token whose expiry has passed
(with a parseable date argument), verifyIdentity returns Expired
regardless of whether the date matches; and for a valid unexpired token
of a voter who has not voted, a wrong date yields IdentityMismatch with
no state change. -/
theorem C8_verify_identity_boundary :
    ∀ (s : DB) (now : Nat) (tok dob : String) (d : Date)
      (vt : VotingToken) (v : Voter) (e : Election),
      parseIsoDate dob = some d →
      lookupTok s tok = some vt →
      lookupVoter s vt.voter_id = some v →
      lookupElection s vt.election_id = some e →
      (vt.is_used = false → now > vt.expires_at →
        verify_identity s now tok dob = .error .expired) ∧
      (vt.is_used = false → ¬ now > vt.expires_at → e.status = "open" →
        v.has_voted = false → v.date_of_birth ≠ d →
        verify_identity s now tok dob = .error .identityMismatch ∧
        applyOp s (.verifyIdentity now tok dob) = s) := by
  intro s now tok dob d vt v e hd htok hv hel
  constructor
  · intro hu hexp
    simp [verify_identity, hd, htok, hv, hel, hu, hexp]
  · intro hu hexp hst hhv hdob
    have h1 : verify_identity s now tok dob = .error .identityMismatch := by
      simp [verify_identity, hd, htok, hv, hel, hu, hexp, hst, hhv, hdob]
    exact ⟨h1, by simp [applyOp, h1]⟩

/-- Witness for the amended C8: an unused token expired at 10, queried at
100 with the correct date, yields Expired. -/
theorem C8_verify_identity_boundary_witness :
    verify_identity dbE 100 "tokA" "1990-06-15" = .error .expired :=
  (C8_verify_identity_boundary dbE 100 "tokA" "1990-06-15" dob0
    ⟨1, "tokA", 1, 1, 10, false, none⟩ voter0 election0
    (by decide) (by rfl) (by rfl) (by rfl)).1 rfl (by decide)

/-- C9: verifyIdentity is idempotent.  If a call succeeds, repeating it
with the same arguments on the resulting state (which holds at most one
record per token, as any state reachable by these operations does)
succeeds again, changes nothing, and exactly one
IdentityVerificationRecord exists for the token. -/
theorem C9_verify_identity_idempotent :
    ∀ (s : DB) (now : Nat) (tok dob : String) (s₁ : DB),
      countMfa s tok ≤ 1 →
      verify_identity s now tok dob = .ok s₁ →
      verify_identity s₁ now tok dob = .ok s₁ ∧ countMfa s₁ tok = 1 := by
  intro s now tok dob s₁ hcount h
  obtain ⟨d, vt, v, e, hd, htok, hv, hel, hu, hexp, hst, hhv, hdob, hcase⟩ :=
    verify_ok_inv h
  rcases hcase with ⟨⟨m, hm⟩, heq⟩ | ⟨hm, heq⟩
  · have hcnt : 0 < countMfa s tok := countP_pos_of_find?_some hm
    have h1 : countMfa s tok = 1 := Nat.le_antisymm hcount hcnt
    rw [heq] at h ⊢
    exact ⟨h, h1⟩
  · rw [heq]
    have htok2 : lookupTok (mfaInsert s tok) tok = some vt := htok
    have hv2 : lookupVoter (mfaInsert s tok) vt.voter_id = some v := hv
    have hel2 : lookupElection (mfaInsert s tok) vt.election_id = some e := hel
    have hm2 : lookupMfa (mfaInsert s tok) tok =
        some (⟨s.next_mfa_id, tok⟩ : MfaRecord) := by
      show (s.voter_mfa ++ [(⟨s.next_mfa_id, tok⟩ : MfaRecord)]).find?
        (fun x => x.token == tok) = _
      rw [List.find?_append]
      unfold lookupMfa at hm
      rw [hm]
      simp
    constructor
    · simp [verify_identity, hd, htok2, hv2, hel2, hm2, hu, hexp, hst,
        hhv, hdob]
    · show (s.voter_mfa ++ [(⟨s.next_mfa_id, tok⟩ : MfaRecord)]).countP
        (fun x => x.token == tok) = 1
      rw [List.countP_append]
      unfold lookupMfa at hm
      rw [countP_eq_zero_of_find?_none hm]
      simp

/-- Witness for C9: verifying the fixture voter twice leaves the state
of the first success and exactly one record. -/
theorem C9_verify_identity_idempotent_witness :
    verify_identity dbV 5 "tokA" "1990-06-15" = .ok dbV ∧
      countMfa dbV "tokA" = 1 :=
  C9_verify_identity_idempotent db0 5 "tokA" "1990-06-15" dbV
    (by decide) (by rfl)

/-- C10: a date-of-birth argument that does not parse as `YYYY-MM-DD`
makes verifyIdentity fail with the "Invalid date format" error — a kind
outside the spec's taxonomy — independently of the stored state, before
any lookup, and with no state change. -/
theorem C10_invalid_date_short_circuit :
    ∀ (dob : String), parseIsoDate dob = none →
      ∀ (s s2 : DB) (now : Nat) (tok : String),
        verify_identity s now tok dob = .error .invalidDateFormat ∧
        verify_identity s now tok dob = verify_identity s2 now tok dob ∧
        applyOp s (.verifyIdentity now tok dob) = s := by
  intro dob h s s2 now tok
  have h1 : ∀ (s3 : DB),
      verify_identity s3 now tok dob = .error .invalidDateFormat := by
    intro s3
    simp [verify_identity, h]
  exact ⟨h1 s, (h1 s).trans (h1 s2).symm, by simp [applyOp, h1 s]⟩

/-- Witness for C10 with a malformed date string. -/
theorem C10_invalid_date_short_circuit_witness :
    verify_identity db0 5 "tokA" "not-a-date" = .error .invalidDateFormat :=
  (C10_invalid_date_short_circuit "not-a-date" (by decide) db0 db0 5 "tokA").1

end UVote
